import Mathlib

/-!
Verification development for `crates/room/src/room.rs` of this repository:
the real-time collaborative session ("room") core.

The Rust code is shallowly embedded below. Stateful methods on `Room`
become pure functions from the pre-state (plus the outcome of each
transport interaction, which the code awaits) to the post-state together
with the returned `Result` and whether `cx.notify()` was reached.
`anyhow` error values are modelled by the error taxonomy `RoomError`
(one constructor per distinct failure the code can produce).
Machine integers (`u64`, peer ids) only ever get stored and compared in
this code, never arithmetically combined, so they are modelled by `Nat`.
-/

namespace RoomCore

/-- Status of a room session (`RoomStatus` in room.rs): `Online` or `Offline`. -/
inductive RoomStatus
  | Online
  | Offline
deriving DecidableEq

/-- Embeds `RoomStatus::is_offline` (room.rs line 208). -/
def RoomStatus.is_offline : RoomStatus → Bool
  | RoomStatus.Offline => true
  | RoomStatus.Online => false

/-- Error taxonomy for the room core. The Rust code uses `anyhow` strings:
"room is offline" is `RoomOffline`, "invalid room" on a missing join
snapshot is `InvalidRoomState`, a failed transport request is
`SignalingFailure`, and an unrecognized location tag during reconciliation
is `InvalidLocation`. -/
inductive RoomError
  | RoomOffline
  | SignalingFailure
  | InvalidRoomState
  | InvalidLocation
deriving DecidableEq

/-- Modelled from the spec: the module `participant` (file
`crates/room/src/participant.rs`) is not under `src/`; the spec describes
`ParticipantLocation` as the variant type with cases External,
SharedProject (a project reference) and UnsharedProject. Project
references are opaque comparable identifiers, modelled as `Nat`. -/
inductive ParticipantLocation
  | External
  | SharedProject (project_id : Nat)
  | UnsharedProject
deriving DecidableEq

/-- Modelled from the spec: the wire form of a location, a tag plus optional
location data (spec section 6: location_tag, location_data). The data is
only meaningful for the shared-project tag. -/
structure ProtoLocation where
  tag : Nat
  project_id : Nat
deriving DecidableEq

/-- Modelled from the spec: `ParticipantLocation::from_proto` lives in the
missing `participant.rs`. Per the spec, it parses the wire location and
fails with `InvalidLocation` exactly when the tag is unrecognized; the
three recognized tags yield the three variants. -/
def ParticipantLocation.from_proto (loc : ProtoLocation) : Except RoomError ParticipantLocation :=
  if loc.tag = 0 then Except.ok ParticipantLocation.External
  else if loc.tag = 1 then Except.ok (ParticipantLocation.SharedProject loc.project_id)
  else if loc.tag = 2 then Except.ok ParticipantLocation.UnsharedProject
  else Except.error RoomError.InvalidLocation

/-- Embeds `RemoteParticipant` (from the missing `participant.rs`, shape
fixed by its uses in room.rs lines 126-130 and the spec data model):
user identifier, set of shared project references, location. -/
structure RemoteParticipant where
  user_id : Nat
  projects : List Nat
  location : ParticipantLocation
deriving DecidableEq

/-- Embeds `LocalParticipant` (shape per room.rs lines 50-52): the set of
projects the local user shares. -/
structure LocalParticipant where
  projects : List Nat
deriving DecidableEq

/-- Peer identifiers (`PeerId(u64)` newtype in the client crate). -/
abbrev PeerId := Nat

/-- Embeds the remote-participant registry
`HashMap<PeerId, RemoteParticipant>` as an association list with
insert-replaces semantics. -/
structure Registry where
  entries : List (PeerId × RemoteParticipant)
deriving DecidableEq

/-- Insertion into the underlying entry list: replace the value in place
when the key is present, append otherwise (the observable behaviour of
`HashMap::insert`). -/
def Registry.insertEntry : List (PeerId × RemoteParticipant) → PeerId → RemoteParticipant →
    List (PeerId × RemoteParticipant)
  | [], k, v => [(k, v)]
  | (k', v') :: rest, k, v =>
    if k' = k then (k, v) :: rest else (k', v') :: Registry.insertEntry rest k v

/-- Embeds `HashMap::insert` on the registry. -/
def Registry.insert (reg : Registry) (k : PeerId) (v : RemoteParticipant) : Registry :=
  ⟨Registry.insertEntry reg.entries k v⟩

/-- Lookup in the underlying entry list. -/
def Registry.findEntry : List (PeerId × RemoteParticipant) → PeerId → Option RemoteParticipant
  | [], _ => none
  | (k', v) :: rest, k => if k' = k then some v else Registry.findEntry rest k

/-- Embeds `HashMap::get` on the registry. -/
def Registry.find? (reg : Registry) (k : PeerId) : Option RemoteParticipant :=
  Registry.findEntry reg.entries k

/-- The empty registry (`HashMap::clear` / `Default::default()`). -/
def Registry.empty : Registry := ⟨[]⟩

/-- Number of entries in the registry. -/
def Registry.size (reg : Registry) : Nat := reg.entries.length

/-- Embeds the `Room` struct (room.rs lines 16-24). The field
`client_user_id` stands for what `self.client.user_id()` returns during an
operation (the transport client's authenticated user, `Option<u64>`);
the client itself is an external collaborator. -/
structure Room where
  id : Nat
  status : RoomStatus
  local_participant : LocalParticipant
  remote_participants : Registry
  pending_user_ids : List Nat
  client_user_id : Option Nat
deriving DecidableEq

/-- Embeds the wire participant record (`proto::Participant`, shape per its
uses in room.rs lines 122-130 and spec section 6). -/
structure ProtoParticipant where
  user_id : Nat
  peer_id : Nat
  location : ProtoLocation
deriving DecidableEq

/-- Embeds the wire room snapshot (`proto::Room`, spec section 6:
room_id, participants, pending_user_ids). -/
structure ProtoRoom where
  id : Nat
  participants : List ProtoParticipant
  pending_user_ids : List Nat
deriving DecidableEq

/-- Result of a mutating `Room` operation: the returned `Result`, the
post-state, and whether `cx.notify()` was reached. -/
structure Outcome where
  result : Except RoomError Unit
  room : Room
  notified : Bool

/-- Embeds the participant loop of `apply_room_update` (room.rs lines
122-133), which mutates the registry in place record by record. Given the
client's user id and the current (already cleared) registry, it processes
the record list left to right: a record whose `Some(user_id)` equals
`self.client.user_id()` is skipped; otherwise its location is parsed, and
on parse failure the loop aborts returning the error and the registry as
mutated so far; on success the participant is inserted keyed by its peer
id, with an empty project set. -/
def insertParticipants (client_user_id : Option Nat) :
    List ProtoParticipant → Registry → Option RoomError × Registry
  | [], reg => (none, reg)
  | p :: ps, reg =>
    if some p.user_id ≠ client_user_id then
      match ParticipantLocation.from_proto p.location with
      | Except.error e => (some e, reg)
      | Except.ok loc =>
          insertParticipants client_user_id ps
            (reg.insert p.peer_id ⟨p.user_id, [], loc⟩)
    else
      insertParticipants client_user_id ps reg

/-- Embeds `Room::apply_room_update` (room.rs lines 119-137): clear the
registry, run the participant loop (so the final registry is whatever the
loop built from empty, even on error), and only on full success replace
`pending_user_ids` with the snapshot's list and call `cx.notify()`. -/
def Room.apply_room_update (room : Room) (proto : ProtoRoom) : Outcome :=
  match insertParticipants room.client_user_id proto.participants Registry.empty with
  | (some e, reg) =>
      { result := Except.error e
        room := { room with remote_participants := reg }
        notified := false }
  | (none, reg) =>
      { result := Except.ok ()
        room := { room with remote_participants := reg,
                            pending_user_ids := proto.pending_user_ids }
        notified := true }

/-- Embeds `Room::leave` (room.rs lines 85-95). `send_result` is the
outcome of `self.client.send(proto::LeaveRoom ...)`; its error, when any,
is propagated verbatim by the `?` operator, after the local transition to
Offline and the registry clear have already happened but before
`cx.notify()` is reached. -/
def Room.leave (room : Room) (send_result : Except RoomError Unit) : Outcome :=
  if room.status.is_offline then
    { result := Except.error RoomError.RoomOffline, room := room, notified := false }
  else
    let room' := { room with status := RoomStatus.Offline,
                             remote_participants := Registry.empty }
    match send_result with
    | Except.error e => { result := Except.error e, room := room', notified := false }
    | Except.ok _ => { result := Except.ok (), room := room', notified := true }

/-- Result of `Room::call`: the returned `Result`, the post-state, and the
invite request issued to the transport, when one was (room id paired with
target user id). -/
structure CallOutcome where
  result : Except RoomError Unit
  room : Room
  request : Option (Nat × Nat)

/-- Embeds `Room::call` (room.rs lines 139-155). `request_result` is the
outcome of the awaited `proto::Call` request; it is returned verbatim.
No field of the room is written. -/
def Room.call (room : Room) (to_user_id : Nat) (request_result : Except RoomError Unit) :
    CallOutcome :=
  if room.status.is_offline then
    { result := Except.error RoomError.RoomOffline, room := room, request := none }
  else
    { result := request_result, room := room, request := some (room.id, to_user_id) }

/-- Embeds `Room::new` (room.rs lines 47-57): status Online, empty local
project set, empty registry, empty pending invites. -/
def Room.new (id : Nat) (client_user_id : Option Nat) : Room :=
  { id := id
    status := RoomStatus.Online
    local_participant := { projects := [] }
    remote_participants := Registry.empty
    pending_user_ids := []
    client_user_id := client_user_id }

/-- Embeds the `proto::JoinRoom` response: an optional room snapshot. -/
structure JoinRoomResponse where
  room : Option ProtoRoom
deriving DecidableEq

/-- Embeds `Room::join` (room.rs lines 70-83). `request_result` is the
outcome of the awaited `proto::JoinRoom` request; a transport failure is
propagated verbatim before anything else happens; a response without a
snapshot fails with "invalid room" (`InvalidRoomState`) before the room
model is constructed; otherwise the room is constructed and the snapshot
applied, whose error if any is propagated. -/
def Room.join (room_id : Nat) (client_user_id : Option Nat)
    (request_result : Except RoomError JoinRoomResponse) : Except RoomError Room :=
  match request_result with
  | Except.error e => Except.error e
  | Except.ok response =>
    match response.room with
    | none => Except.error RoomError.InvalidRoomState
    | some room_proto =>
      let outcome := (Room.new room_id client_user_id).apply_room_update room_proto
      match outcome.result with
      | Except.error e => Except.error e
      | Except.ok _ => Except.ok outcome.room

/-- Embeds the monitor task spawned in `Room::new` (room.rs lines 33-45)
as a function of the trace it observes. `events` is the finite sequence of
connectivity states the `client.status()` stream yields while the task
runs (`true` for connected), and `session_alive` is whether the weak
handle upgrades when the task reacts. The task awaits the first yield
(absence of one counts as not connected), and tears down, calling
`leave` once, when that state is not connected or when a second yield
arrives; then the task body ends. The value is the number of `leave`
invocations the task performs on this trace. -/
def monitorLeaveCount (events : List Bool) (session_alive : Bool) : Nat :=
  let is_connected := match events with
    | [] => false
    | e :: _ => e
  let tear_down :=
    if is_connected then
      match events with
      | _ :: _ :: _ => true
      | _ => false
    else true
  if tear_down && session_alive then 1 else 0

/-- The sublist of participant records the reconciliation loop does not
skip: those whose `Some(user_id)` differs from the client's user id.
Mirrors the guard of room.rs line 123 for use in theorem statements. -/
def remoteRecords (client_user_id : Option Nat) : List ProtoParticipant → List ProtoParticipant
  | [] => []
  | p :: ps =>
    if some p.user_id ≠ client_user_id then p :: remoteRecords client_user_id ps
    else remoteRecords client_user_id ps

/-- Boolean check that a record's wire location parses (statement helper). -/
def validLocation (p : ProtoParticipant) : Bool :=
  match ParticipantLocation.from_proto p.location with
  | Except.ok _ => true
  | Except.error _ => false

/-- The reconciliation loop with the local-user guard removed: every record
is processed. Written to the spec's words "inserts every participant
record", to be compared with `insertParticipants` when the client reports
no local user id. -/
def insertParticipantsAll : List ProtoParticipant → Registry → Option RoomError × Registry
  | [], reg => (none, reg)
  | p :: ps, reg =>
    match ParticipantLocation.from_proto p.location with
    | Except.error e => (some e, reg)
    | Except.ok loc =>
        insertParticipantsAll ps (reg.insert p.peer_id ⟨p.user_id, [], loc⟩)

/-- Concrete room for exercising reconciliation failure: Online, local user
5, registry holding peer 1 (user 9), one pending invite. -/
def roomA : Room :=
  { id := 1
    status := RoomStatus.Online
    local_participant := { projects := [] }
    remote_participants := ⟨[(1, ⟨9, [], ParticipantLocation.External⟩)]⟩
    pending_user_ids := [4]
    client_user_id := some 5 }

/-- Concrete snapshot whose second record carries unrecognized location
tag 99; the first record (user 7, peer 3) is valid and not local. -/
def protoA : ProtoRoom :=
  { id := 1
    participants := [⟨7, 3, ⟨0, 0⟩⟩, ⟨8, 4, ⟨99, 0⟩⟩]
    pending_user_ids := [6] }

/-- Concrete Offline room with an empty registry (the state `leave`
produces), local user 5. -/
def roomB : Room :=
  { id := 2
    status := RoomStatus.Offline
    local_participant := { projects := [] }
    remote_participants := Registry.empty
    pending_user_ids := []
    client_user_id := some 5 }

/-- Concrete valid snapshot with a single remote record (user 9, peer 2). -/
def protoB : ProtoRoom :=
  { id := 2
    participants := [⟨9, 2, ⟨0, 0⟩⟩]
    pending_user_ids := [] }

/-- Concrete Online room, local user 5, empty registry. -/
def roomC : Room :=
  { id := 3
    status := RoomStatus.Online
    local_participant := { projects := [] }
    remote_participants := Registry.empty
    pending_user_ids := []
    client_user_id := some 5 }

/-- Concrete snapshot holding a record for the local user 5 (peer 1) and a
remote record for user 9 (peer 2). -/
def protoC : ProtoRoom :=
  { id := 3
    participants := [⟨5, 1, ⟨0, 0⟩⟩, ⟨9, 2, ⟨0, 0⟩⟩]
    pending_user_ids := [] }

/-- Concrete Online room with a non-empty registry, for the leave
transition. -/
def roomD : Room :=
  { id := 4
    status := RoomStatus.Online
    local_participant := { projects := [] }
    remote_participants := ⟨[(3, ⟨7, [], ParticipantLocation.External⟩)]⟩
    pending_user_ids := []
    client_user_id := some 5 }

/-- Concrete room for the spec's reconciliation scenario: local user 5. -/
def roomE : Room :=
  { id := 5
    status := RoomStatus.Online
    local_participant := { projects := [] }
    remote_participants := Registry.empty
    pending_user_ids := []
    client_user_id := some 5 }

/-- Spec scenario snapshot: records for users 5 (peer 1) and 9 (peer 2),
both at the External location, pending invites 11 and 12. -/
def protoE : ProtoRoom :=
  { id := 5
    participants := [⟨5, 1, ⟨0, 0⟩⟩, ⟨9, 2, ⟨0, 0⟩⟩]
    pending_user_ids := [11, 12] }

/-- Concrete Online room with a non-empty registry, for the failing-send
leave. -/
def roomF : Room :=
  { id := 6
    status := RoomStatus.Online
    local_participant := { projects := [] }
    remote_participants := ⟨[(2, ⟨9, [], ParticipantLocation.External⟩)]⟩
    pending_user_ids := []
    client_user_id := some 5 }

/-- Concrete Online room with id 42, for the call operation. -/
def roomH : Room :=
  { id := 42
    status := RoomStatus.Online
    local_participant := { projects := [] }
    remote_participants := Registry.empty
    pending_user_ids := []
    client_user_id := some 5 }

/-- Concrete Offline room, for the call offline guard. -/
def roomHoff : Room :=
  { id := 43
    status := RoomStatus.Offline
    local_participant := { projects := [] }
    remote_participants := Registry.empty
    pending_user_ids := []
    client_user_id := some 5 }

/-- Concrete room whose transport client reports no local user id. -/
def roomJ : Room :=
  { id := 7
    status := RoomStatus.Online
    local_participant := { projects := [] }
    remote_participants := Registry.empty
    pending_user_ids := []
    client_user_id := none }

/-- Concrete valid snapshot with records for users 5 (peer 1) and 9
(peer 2). -/
def protoJ : ProtoRoom :=
  { id := 7
    participants := [⟨5, 1, ⟨0, 0⟩⟩, ⟨9, 2, ⟨0, 0⟩⟩]
    pending_user_ids := [] }

/-! Helper lemmas about the registry embedding. -/

theorem mem_insertEntry {l : List (PeerId × RemoteParticipant)} {k : PeerId}
    {v : RemoteParticipant} {kv : PeerId × RemoteParticipant}
    (h : kv ∈ Registry.insertEntry l k v) : kv = (k, v) ∨ kv ∈ l := by
  induction l with
  | nil =>
    simp only [Registry.insertEntry, List.mem_singleton] at h
    exact Or.inl h
  | cons hd tl ih =>
    obtain ⟨k', v'⟩ := hd
    by_cases hk : k' = k
    · simp only [Registry.insertEntry, if_pos hk, List.mem_cons] at h
      rcases h with h | h
      · exact Or.inl h
      · exact Or.inr (List.mem_cons_of_mem _ h)
    · simp only [Registry.insertEntry, if_neg hk, List.mem_cons] at h
      rcases h with h | h
      · exact Or.inr (by simp [h])
      · rcases ih h with h2 | h2
        · exact Or.inl h2
        · exact Or.inr (List.mem_cons_of_mem _ h2)

theorem findEntry_insertEntry_self (l : List (PeerId × RemoteParticipant)) (k : PeerId)
    (v : RemoteParticipant) :
    Registry.findEntry (Registry.insertEntry l k v) k = some v := by
  induction l with
  | nil => simp [Registry.insertEntry, Registry.findEntry]
  | cons hd tl ih =>
    obtain ⟨k', v'⟩ := hd
    by_cases hk : k' = k
    · simp [Registry.insertEntry, if_pos hk, Registry.findEntry]
    · simp [Registry.insertEntry, if_neg hk, Registry.findEntry, hk, ih]

theorem findEntry_insertEntry_ne (l : List (PeerId × RemoteParticipant)) (k' k : PeerId)
    (v : RemoteParticipant) (h : k' ≠ k) :
    Registry.findEntry (Registry.insertEntry l k' v) k = Registry.findEntry l k := by
  induction l with
  | nil => simp [Registry.insertEntry, Registry.findEntry, h]
  | cons hd tl ih =>
    obtain ⟨k1, v1⟩ := hd
    by_cases hk : k1 = k'
    · subst hk
      simp [Registry.insertEntry, Registry.findEntry, h]
    · simp [Registry.insertEntry, if_neg hk, Registry.findEntry, ih]

theorem find?_insert_self (reg : Registry) (k : PeerId) (v : RemoteParticipant) :
    (reg.insert k v).find? k = some v :=
  findEntry_insertEntry_self reg.entries k v

theorem find?_insert_ne (reg : Registry) (k' k : PeerId) (v : RemoteParticipant)
    (h : k' ≠ k) : (reg.insert k' v).find? k = reg.find? k :=
  findEntry_insertEntry_ne reg.entries k' k v h

theorem find?_insert_isSome (reg : Registry) (k' k : PeerId) (v : RemoteParticipant)
    (h : (reg.find? k).isSome = true) : ((reg.insert k' v).find? k).isSome = true := by
  by_cases hk : k' = k
  · subst hk
    rw [find?_insert_self]
    rfl
  · rw [find?_insert_ne reg k' k v hk]
    exact h

theorem size_insert_of_fresh (reg : Registry) (k : PeerId) (v : RemoteParticipant)
    (h : reg.find? k = none) : (reg.insert k v).size = reg.size + 1 := by
  obtain ⟨l⟩ := reg
  simp only [Registry.find?] at h
  simp only [Registry.insert, Registry.size]
  induction l with
  | nil => simp [Registry.insertEntry]
  | cons hd tl ih =>
    obtain ⟨k1, v1⟩ := hd
    by_cases hk : k1 = k
    · simp [Registry.findEntry, if_pos hk] at h
    · simp only [Registry.findEntry, if_neg hk] at h
      simp [Registry.insertEntry, if_neg hk, ih h]

/-! Helper lemmas about the reconciliation loop. -/

theorem insertParticipants_cons_skip (uid : Option Nat) (p : ProtoParticipant)
    (ps : List ProtoParticipant) (reg : Registry) (h : some p.user_id = uid) :
    insertParticipants uid (p :: ps) reg = insertParticipants uid ps reg := by
  simp [insertParticipants, h]

theorem insertParticipants_cons_ok (uid : Option Nat) (p : ProtoParticipant)
    (ps : List ProtoParticipant) (reg : Registry) (h : some p.user_id ≠ uid)
    (loc : ParticipantLocation)
    (hloc : ParticipantLocation.from_proto p.location = Except.ok loc) :
    insertParticipants uid (p :: ps) reg =
      insertParticipants uid ps (reg.insert p.peer_id ⟨p.user_id, [], loc⟩) := by
  simp [insertParticipants, h, hloc]

theorem insertParticipants_cons_error (uid : Option Nat) (p : ProtoParticipant)
    (ps : List ProtoParticipant) (reg : Registry) (h : some p.user_id ≠ uid)
    (e : RoomError) (hloc : ParticipantLocation.from_proto p.location = Except.error e) :
    insertParticipants uid (p :: ps) reg = (some e, reg) := by
  simp [insertParticipants, h, hloc]

theorem remoteRecords_cons_skip (uid : Option Nat) (p : ProtoParticipant)
    (ps : List ProtoParticipant) (h : some p.user_id = uid) :
    remoteRecords uid (p :: ps) = remoteRecords uid ps := by
  simp [remoteRecords, h]

theorem remoteRecords_cons_keep (uid : Option Nat) (p : ProtoParticipant)
    (ps : List ProtoParticipant) (h : some p.user_id ≠ uid) :
    remoteRecords uid (p :: ps) = p :: remoteRecords uid ps := by
  simp [remoteRecords, h]

theorem validLocation_ok (p : ProtoParticipant) (h : validLocation p = true) :
    ∃ loc, ParticipantLocation.from_proto p.location = Except.ok loc := by
  unfold validLocation at h
  cases hloc : ParticipantLocation.from_proto p.location with
  | ok loc => exact ⟨loc, rfl⟩
  | error e => rw [hloc] at h; simp at h

theorem insertParticipants_append (uid : Option Nat) (l1 l2 : List ProtoParticipant)
    (reg : Registry) :
    insertParticipants uid (l1 ++ l2) reg =
      match insertParticipants uid l1 reg with
      | (some e, r) => (some e, r)
      | (none, r) => insertParticipants uid l2 r := by
  induction l1 generalizing reg with
  | nil => simp [insertParticipants]
  | cons p ps ih =>
    by_cases hp : some p.user_id ≠ uid
    · cases hloc : ParticipantLocation.from_proto p.location with
      | error e =>
        rw [List.cons_append, insertParticipants_cons_error uid p (ps ++ l2) reg hp e hloc,
          insertParticipants_cons_error uid p ps reg hp e hloc]
      | ok loc =>
        rw [List.cons_append, insertParticipants_cons_ok uid p (ps ++ l2) reg hp loc hloc,
          insertParticipants_cons_ok uid p ps reg hp loc hloc, ih]
    · push_neg at hp
      rw [List.cons_append, insertParticipants_cons_skip uid p (ps ++ l2) reg hp,
        insertParticipants_cons_skip uid p ps reg hp, ih]

theorem insertParticipants_ok_of_valid (uid : Option Nat) (ps : List ProtoParticipant)
    (reg : Registry)
    (h : ∀ p ∈ ps, some p.user_id = uid ∨ validLocation p = true) :
    (insertParticipants uid ps reg).1 = none := by
  induction ps generalizing reg with
  | nil => simp [insertParticipants]
  | cons p ps ih =>
    by_cases hp : some p.user_id ≠ uid
    · rcases h p (List.mem_cons_self p ps) with hskip | hvalid
      · exact absurd hskip hp
      · obtain ⟨loc, hloc⟩ := validLocation_ok p hvalid
        rw [insertParticipants_cons_ok uid p ps reg hp loc hloc]
        exact ih _ (fun q hq => h q (List.mem_cons_of_mem _ hq))
    · push_neg at hp
      rw [insertParticipants_cons_skip uid p ps reg hp]
      exact ih _ (fun q hq => h q (List.mem_cons_of_mem _ hq))

theorem find?_insertParticipants_of_not_mem (uid : Option Nat)
    (ps : List ProtoParticipant) (reg : Registry) (k : PeerId)
    (h : ∀ p ∈ remoteRecords uid ps, p.peer_id ≠ k) :
    ((insertParticipants uid ps reg).2).find? k = reg.find? k := by
  induction ps generalizing reg with
  | nil => simp [insertParticipants]
  | cons p ps ih =>
    by_cases hp : some p.user_id ≠ uid
    · have hmem := remoteRecords_cons_keep uid p ps hp
      have hpk : p.peer_id ≠ k := h p (by rw [hmem]; exact List.mem_cons_self p _)
      have hrest : ∀ q ∈ remoteRecords uid ps, q.peer_id ≠ k := by
        intro q hq
        exact h q (by rw [hmem]; exact List.mem_cons_of_mem _ hq)
      cases hloc : ParticipantLocation.from_proto p.location with
      | error e =>
        rw [insertParticipants_cons_error uid p ps reg hp e hloc]
      | ok loc =>
        rw [insertParticipants_cons_ok uid p ps reg hp loc hloc, ih _ hrest,
          find?_insert_ne reg p.peer_id k _ hpk]
    · push_neg at hp
      rw [insertParticipants_cons_skip uid p ps reg hp]
      exact ih _ (fun q hq => h q (by rw [remoteRecords_cons_skip uid p ps hp]; exact hq))

theorem find?_insertParticipants_isSome (uid : Option Nat) (ps : List ProtoParticipant)
    (reg : Registry) (k : PeerId) (h : (reg.find? k).isSome = true) :
    (((insertParticipants uid ps reg).2).find? k).isSome = true := by
  induction ps generalizing reg with
  | nil => simpa [insertParticipants] using h
  | cons p ps ih =>
    by_cases hp : some p.user_id ≠ uid
    · cases hloc : ParticipantLocation.from_proto p.location with
      | error e =>
        rw [insertParticipants_cons_error uid p ps reg hp e hloc]
        exact h
      | ok loc =>
        rw [insertParticipants_cons_ok uid p ps reg hp loc hloc]
        exact ih _ (find?_insert_isSome reg p.peer_id k _ h)
    · push_neg at hp
      rw [insertParticipants_cons_skip uid p ps reg hp]
      exact ih _ h

theorem find?_insertParticipants_mem (uid : Option Nat) (ps : List ProtoParticipant)
    (reg : Registry)
    (hval : ∀ p ∈ ps, some p.user_id = uid ∨ validLocation p = true)
    (hnd : ((remoteRecords uid ps).map (fun p => p.peer_id)).Nodup) :
    ∀ p ∈ ps, some p.user_id ≠ uid →
      ∃ loc, ParticipantLocation.from_proto p.location = Except.ok loc ∧
        ((insertParticipants uid ps reg).2).find? p.peer_id =
          some ⟨p.user_id, [], loc⟩ := by
  induction ps generalizing reg with
  | nil =>
    intro p hp
    cases hp
  | cons q qs ih =>
    intro p hp hpne
    by_cases hq : some q.user_id ≠ uid
    · rcases hval q (List.mem_cons_self q qs) with hskip | hv
      · exact absurd hskip hq
      obtain ⟨locq, hlocq⟩ := validLocation_ok q hv
      rw [remoteRecords_cons_keep uid q qs hq] at hnd
      simp only [List.map_cons, List.nodup_cons] at hnd
      obtain ⟨hqnotin, hndrest⟩ := hnd
      rw [insertParticipants_cons_ok uid q qs reg hq locq hlocq]
      rcases List.mem_cons.mp hp with rfl | hprest
      · refine ⟨locq, hlocq, ?_⟩
        have hnot : ∀ r ∈ remoteRecords uid qs, r.peer_id ≠ p.peer_id := by
          intro r hr hreq
          exact hqnotin (by rw [← hreq]; exact List.mem_map_of_mem _ hr)
        rw [find?_insertParticipants_of_not_mem uid qs _ p.peer_id hnot,
          find?_insert_self]
      · exact ih _ (fun r hr => hval r (List.mem_cons_of_mem _ hr)) hndrest p hprest hpne
    · push_neg at hq
      rw [insertParticipants_cons_skip uid q qs reg hq]
      rw [remoteRecords_cons_skip uid q qs hq] at hnd
      rcases List.mem_cons.mp hp with rfl | hprest
      · exact absurd hq hpne
      · exact ih _ (fun r hr => hval r (List.mem_cons_of_mem _ hr)) hnd p hprest hpne

theorem size_insertParticipants (uid : Option Nat) (ps : List ProtoParticipant)
    (reg : Registry)
    (hval : ∀ p ∈ ps, some p.user_id = uid ∨ validLocation p = true)
    (hnd : ((remoteRecords uid ps).map (fun p => p.peer_id)).Nodup)
    (hfresh : ∀ p ∈ remoteRecords uid ps, reg.find? p.peer_id = none) :
    ((insertParticipants uid ps reg).2).size = reg.size + (remoteRecords uid ps).length := by
  induction ps generalizing reg with
  | nil => simp [insertParticipants, remoteRecords]
  | cons q qs ih =>
    by_cases hq : some q.user_id ≠ uid
    · rcases hval q (List.mem_cons_self q qs) with hskip | hv
      · exact absurd hskip hq
      obtain ⟨locq, hlocq⟩ := validLocation_ok q hv
      rw [remoteRecords_cons_keep uid q qs hq] at hnd hfresh ⊢
      simp only [List.map_cons, List.nodup_cons] at hnd
      obtain ⟨hqnotin, hndrest⟩ := hnd
      rw [insertParticipants_cons_ok uid q qs reg hq locq hlocq]
      have hfreshq : reg.find? q.peer_id = none := hfresh q (List.mem_cons_self _ _)
      have hfresh2 : ∀ r ∈ remoteRecords uid qs,
          (reg.insert q.peer_id ⟨q.user_id, [], locq⟩).find? r.peer_id = none := by
        intro r hr
        have hrq : q.peer_id ≠ r.peer_id := by
          intro hEq
          exact hqnotin (by rw [hEq]; exact List.mem_map_of_mem _ hr)
        rw [find?_insert_ne _ _ _ _ hrq]
        exact hfresh r (List.mem_cons_of_mem _ hr)
      rw [ih _ (fun r hr => hval r (List.mem_cons_of_mem _ hr)) hndrest hfresh2,
        size_insert_of_fresh reg q.peer_id _ hfreshq, List.length_cons]
      omega
    · push_neg at hq
      rw [remoteRecords_cons_skip uid q qs hq] at hnd hfresh ⊢
      rw [insertParticipants_cons_skip uid q qs reg hq]
      exact ih _ (fun r hr => hval r (List.mem_cons_of_mem _ hr)) hnd hfresh

theorem insertParticipants_no_local (u : Nat) (ps : List ProtoParticipant) (reg : Registry)
    (h : ∀ kv ∈ reg.entries, kv.2.user_id ≠ u) :
    ∀ kv ∈ ((insertParticipants (some u) ps reg).2).entries, kv.2.user_id ≠ u := by
  induction ps generalizing reg with
  | nil => simpa [insertParticipants] using h
  | cons p ps ih =>
    by_cases hp : some p.user_id ≠ (some u : Option Nat)
    · cases hloc : ParticipantLocation.from_proto p.location with
      | error e =>
        rw [insertParticipants_cons_error (some u) p ps reg hp e hloc]
        exact h
      | ok loc =>
        rw [insertParticipants_cons_ok (some u) p ps reg hp loc hloc]
        refine ih _ ?_
        intro kv hkv
        rcases mem_insertEntry hkv with hkv1 | hkv2
        · rw [hkv1]
          exact fun hEq => hp (congrArg some hEq)
        · exact h kv hkv2
    · push_neg at hp
      rw [insertParticipants_cons_skip (some u) p ps reg hp]
      exact ih _ h

theorem insertParticipants_none_eq_all (ps : List ProtoParticipant) (reg : Registry) :
    insertParticipants none ps reg = insertParticipantsAll ps reg := by
  induction ps generalizing reg with
  | nil => rfl
  | cons p ps ih =>
    have hp : some p.user_id ≠ (none : Option Nat) := by simp
    cases hloc : ParticipantLocation.from_proto p.location with
    | error e =>
      rw [insertParticipants_cons_error none p ps reg hp e hloc]
      simp [insertParticipantsAll, hloc]
    | ok loc =>
      rw [insertParticipants_cons_ok none p ps reg hp loc hloc]
      simp [insertParticipantsAll, hloc, ih]

theorem from_proto_cases (loc : ProtoLocation) :
    (∃ l, ParticipantLocation.from_proto loc = Except.ok l) ∨
      ParticipantLocation.from_proto loc = Except.error RoomError.InvalidLocation := by
  unfold ParticipantLocation.from_proto
  split
  · exact Or.inl ⟨_, rfl⟩
  · split
    · exact Or.inl ⟨_, rfl⟩
    · split
      · exact Or.inl ⟨_, rfl⟩
      · exact Or.inr rfl

theorem validLocation_error (p : ProtoParticipant) (h : validLocation p = false) :
    ParticipantLocation.from_proto p.location = Except.error RoomError.InvalidLocation := by
  rcases from_proto_cases p.location with ⟨l, hl⟩ | hl
  · unfold validLocation at h
    rw [hl] at h
    simp at h
  · exact hl

theorem find?_insertParticipants_mem_isSome (uid : Option Nat) (ps : List ProtoParticipant)
    (reg : Registry)
    (hval : ∀ p ∈ ps, some p.user_id = uid ∨ validLocation p = true) :
    ∀ p ∈ ps, some p.user_id ≠ uid →
      (((insertParticipants uid ps reg).2).find? p.peer_id).isSome = true := by
  induction ps generalizing reg with
  | nil =>
    intro p hp
    cases hp
  | cons q qs ih =>
    intro p hp hpne
    by_cases hq : some q.user_id ≠ uid
    · rcases hval q (List.mem_cons_self q qs) with hskip | hv
      · exact absurd hskip hq
      obtain ⟨locq, hlocq⟩ := validLocation_ok q hv
      rw [insertParticipants_cons_ok uid q qs reg hq locq hlocq]
      rcases List.mem_cons.mp hp with rfl | hprest
      · exact find?_insertParticipants_isSome uid qs _ p.peer_id
          (by rw [find?_insert_self]; rfl)
      · exact ih _ (fun r hr => hval r (List.mem_cons_of_mem _ hr)) p hprest hpne
    · push_neg at hq
      rw [insertParticipants_cons_skip uid q qs reg hq]
      rcases List.mem_cons.mp hp with rfl | hprest
      · exact absurd hq hpne
      · exact ih _ (fun r hr => hval r (List.mem_cons_of_mem _ hr)) p hprest hpne

/-! Claim theorems. -/

/-- Claim C2, counterexample: on the Offline room `roomB` with an empty
registry, applying the pushed snapshot `protoB` succeeds and leaves the
registry holding peer 2 while the status is still Offline:
`apply_room_update` has no offline guard, so the registry does not remain
empty for the rest of the session's lifetime. -/
theorem offline_registry_repopulated_cex :
    roomB.status = RoomStatus.Offline ∧
    roomB.remote_participants = Registry.empty ∧
    (roomB.apply_room_update protoB).result = Except.ok () ∧
    (roomB.apply_room_update protoB).room.status = RoomStatus.Offline ∧
    (roomB.apply_room_update protoB).room.remote_participants.entries =
      [(2, ⟨9, [], ParticipantLocation.External⟩)] :=
  ⟨rfl, rfl, rfl, rfl, rfl⟩

/-- Claim C2 (amended): once a session is Offline, `leave` and `call` fail
with RoomOffline and leave the whole state (in particular an empty
registry) unchanged; but `apply_room_update` is not gated on the status,
so a pushed snapshot applied to an Offline session does repopulate the
registry (see the counterexample). The registry therefore remains empty
only in the absence of further snapshot applications. -/
theorem offline_registry_preserved_by_leave_and_call (room : Room)
    (hoff : room.status = RoomStatus.Offline) :
    (∀ s, room.leave s = ⟨Except.error RoomError.RoomOffline, room, false⟩) ∧
    (∀ t req, room.call t req = ⟨Except.error RoomError.RoomOffline, room, none⟩) := by
  have hb : room.status.is_offline = true := by rw [hoff]; rfl
  constructor
  · intro s
    simp [Room.leave, hb]
  · intro t req
    simp [Room.call, hb]

/-- Witness for the amended C2 theorem at the concrete Offline room. -/
theorem offline_registry_preserved_by_leave_and_call_witness :
    roomB.status = RoomStatus.Offline ∧
    roomB.leave (Except.ok ()) = ⟨Except.error RoomError.RoomOffline, roomB, false⟩ :=
  ⟨rfl, (offline_registry_preserved_by_leave_and_call roomB rfl).1 (Except.ok ())⟩

/-- Claim C4: `leave` on an Offline session fails with RoomOffline and
changes nothing; `leave` on an Online session sets the status Offline and
clears the registry, so a second `leave` fails with RoomOffline; and no
operation returns the status to Online: `apply_room_update` never writes
the status, `call` never writes any field, and `leave` only ever writes
Offline. (The remaining operations, publish_project, unpublish_project,
set_active_project, mute and unmute, consist of the same offline guard
followed by `todo!()`, so they never complete on an Online session and
write no field before panicking.) -/
theorem leave_idempotent_guard_offline_terminal (room : Room)
    (s1 s2 : Except RoomError Unit) :
    (room.status = RoomStatus.Offline →
      room.leave s1 = ⟨Except.error RoomError.RoomOffline, room, false⟩) ∧
    (room.status = RoomStatus.Online →
      (room.leave s1).room.status = RoomStatus.Offline ∧
      (room.leave s1).room.remote_participants = Registry.empty ∧
      (room.leave s1).room.leave s2 =
        ⟨Except.error RoomError.RoomOffline, (room.leave s1).room, false⟩) ∧
    (∀ proto, (room.apply_room_update proto).room.status = room.status) ∧
    (∀ t req, (room.call t req).room = room) := by
  refine ⟨?_, ?_, ?_, ?_⟩
  · intro hoff
    have hb : room.status.is_offline = true := by rw [hoff]; rfl
    simp [Room.leave, hb]
  · intro hon
    have hb : room.status.is_offline = false := by rw [hon]; rfl
    have h1 : (room.leave s1).room =
        { room with status := RoomStatus.Offline,
                    remote_participants := Registry.empty } := by
      cases s1 <;> simp [Room.leave, hb]
    have hb2 : (room.leave s1).room.status.is_offline = true := by rw [h1]; rfl
    refine ⟨by rw [h1], by rw [h1], ?_⟩
    have hoffleave : ∀ (r : Room), r.status.is_offline = true →
        r.leave s2 = ⟨Except.error RoomError.RoomOffline, r, false⟩ := by
      intro r hr
      simp [Room.leave, hr]
    exact hoffleave _ hb2
  · intro proto
    unfold Room.apply_room_update
    cases hres : insertParticipants room.client_user_id proto.participants Registry.empty with
    | mk f r => cases f <;> simp
  · intro t req
    by_cases hoff : room.status.is_offline = true
    · simp [Room.call, hoff]
    · simp [Room.call, hoff]

/-- Witness for the C4 theorem: leaving the concrete Online room `roomD`
and leaving again yields RoomOffline. -/
theorem leave_idempotent_guard_offline_terminal_witness :
    roomD.status = RoomStatus.Online ∧
    ((roomD.leave (Except.ok ())).room.leave (Except.ok ())).result =
      Except.error RoomError.RoomOffline := by
  refine ⟨rfl, ?_⟩
  have h := (leave_idempotent_guard_offline_terminal roomD (Except.ok ())
    (Except.ok ())).2.1 rfl
  rw [h.2.2]

/-- Claim C6, counterexample: leaving the Online room `roomF` while the
transport send fails returns the send failure and the local transition is
kept, but `notified` is false: the state-changed notification is not
emitted, because `cx.notify()` sits after the `?` on `client.send`. -/
theorem leave_send_failure_no_notify_cex :
    roomF.status = RoomStatus.Online ∧
    (roomF.leave (Except.error RoomError.SignalingFailure)).result =
      Except.error RoomError.SignalingFailure ∧
    (roomF.leave (Except.error RoomError.SignalingFailure)).room.status =
      RoomStatus.Offline ∧
    (roomF.leave (Except.error RoomError.SignalingFailure)).room.remote_participants =
      Registry.empty ∧
    (roomF.leave (Except.error RoomError.SignalingFailure)).notified = false :=
  ⟨rfl, rfl, rfl, rfl, rfl⟩

/-- Claim C6 (amended): when `leave` is called on an Online session and the
transport send fails, the failure is returned to the caller while the
session's status is nonetheless Offline and its registry cleared (the
local transition is not rolled back); however no state-changed
notification is emitted in this case, since the notification sits after
the failing send and is only reached on success. -/
theorem leave_send_failure_state_kept (room : Room) (e : RoomError)
    (hon : room.status = RoomStatus.Online) :
    room.leave (Except.error e) =
      ⟨Except.error e,
       { room with status := RoomStatus.Offline,
                   remote_participants := Registry.empty },
       false⟩ := by
  have hb : room.status.is_offline = false := by rw [hon]; rfl
  simp [Room.leave, hb]

/-- Witness for the amended C6 theorem at the concrete Online room. -/
theorem leave_send_failure_state_kept_witness :
    roomF.status = RoomStatus.Online ∧
    roomF.leave (Except.error RoomError.SignalingFailure) =
      ⟨Except.error RoomError.SignalingFailure,
       { roomF with status := RoomStatus.Offline,
                    remote_participants := Registry.empty },
       false⟩ :=
  ⟨rfl, leave_send_failure_state_kept roomF RoomError.SignalingFailure rfl⟩

/-- Claim C7: `join` whose signaling response carries no room snapshot
fails with InvalidRoomState, before the session is even constructed (the
embedding returns no `Room` at all, mirroring room.rs where the
`ok_or_else` check precedes `cx.add_model`); and `join` propagates the
transport error verbatim when the join request itself fails, in
particular a SignalingFailure. -/
theorem join_missing_snapshot_invalid_room_state (room_id : Nat) (uid : Option Nat) :
    Room.join room_id uid (Except.ok ⟨none⟩) = Except.error RoomError.InvalidRoomState ∧
    ∀ e, Room.join room_id uid (Except.error e) = Except.error e :=
  ⟨rfl, fun _ => rfl⟩

/-- Claim C8: `call` fails with RoomOffline when the status is Offline,
touching nothing; when Online it issues exactly one invite request
carrying the room id and the target user id, returns that request's
outcome verbatim, and leaves the session state unchanged. -/
theorem call_offline_guard_and_frame (room : Room) (to_user_id : Nat)
    (req : Except RoomError Unit) :
    (room.status = RoomStatus.Offline →
      room.call to_user_id req = ⟨Except.error RoomError.RoomOffline, room, none⟩) ∧
    (room.status = RoomStatus.Online →
      room.call to_user_id req = ⟨req, room, some (room.id, to_user_id)⟩) := by
  constructor
  · intro hoff
    have hb : room.status.is_offline = true := by rw [hoff]; rfl
    simp [Room.call, hb]
  · intro hon
    have hb : room.status.is_offline = false := by rw [hon]; rfl
    simp [Room.call, hb]

/-- Witness for the C8 theorem at a concrete Online room (id 42, target
user 7) and a concrete Offline room. -/
theorem call_offline_guard_and_frame_witness :
    roomH.status = RoomStatus.Online ∧
    roomH.call 7 (Except.ok ()) = ⟨Except.ok (), roomH, some (42, 7)⟩ ∧
    roomHoff.status = RoomStatus.Offline ∧
    roomHoff.call 7 (Except.ok ()) = ⟨Except.error RoomError.RoomOffline, roomHoff, none⟩ :=
  ⟨rfl, (call_offline_guard_and_frame roomH 7 (Except.ok ())).2 rfl, rfl,
    (call_offline_guard_and_frame roomHoff 7 (Except.ok ())).1 rfl⟩

/-- Claim C9: over any finite trace of connectivity states observed by the
monitor task, `leave` is invoked at most once; if the session has already
been destroyed (the weak handle does not upgrade) it is invoked zero
times; and once two yields have been observed the count does not depend
on anything arriving after the second yield — the task has terminated. -/
theorem monitor_leave_at_most_once (events : List Bool) (alive : Bool) :
    monitorLeaveCount events alive ≤ 1 ∧
    (alive = false → monitorLeaveCount events alive = 0) ∧
    (∀ e1 e2 rest rest2, monitorLeaveCount (e1 :: e2 :: rest) alive =
      monitorLeaveCount (e1 :: e2 :: rest2) alive) := by
  refine ⟨?_, ?_, ?_⟩
  · rcases events with _ | ⟨e1, rest⟩
    · cases alive <;> simp [monitorLeaveCount]
    · cases e1 <;> cases alive <;> rcases rest with _ | ⟨e2, rest2⟩ <;>
        simp [monitorLeaveCount]
  · intro ha
    subst ha
    simp [monitorLeaveCount]
  · intro e1 e2 rest rest2
    cases e1 <;> simp [monitorLeaveCount]

/-- Witness for the C9 theorem on the trace connected, disconnected,
connected (the spec's scenario 4). -/
theorem monitor_leave_at_most_once_witness :
    monitorLeaveCount [true, false, true] true = 1 ∧
    monitorLeaveCount [true, false, true] false = 0 :=
  ⟨rfl, (monitor_leave_at_most_once [true, false, true] false).2.1 rfl⟩

/-- Claim C3: for a session whose client reports local user id `u`, after
a successfully applied snapshot the registry holds no entry whose user
identifier equals `u` — records for the local user are skipped, and the
registry is rebuilt from empty, so no older entry survives either. -/
theorem registry_never_contains_local_user (room : Room) (proto : ProtoRoom) (u : Nat)
    (huid : room.client_user_id = some u)
    (_hok : (room.apply_room_update proto).result = Except.ok ()) :
    ∀ kv ∈ (room.apply_room_update proto).room.remote_participants.entries,
      kv.2.user_id ≠ u := by
  have hsub : (room.apply_room_update proto).room.remote_participants =
      (insertParticipants room.client_user_id proto.participants Registry.empty).2 := by
    unfold Room.apply_room_update
    cases hres : insertParticipants room.client_user_id proto.participants Registry.empty with
    | mk f r => cases f <;> simp
  intro kv hkv
  rw [hsub, huid] at hkv
  refine insertParticipants_no_local u proto.participants Registry.empty ?_ kv hkv
  intro kv2 hkv2
  simp [Registry.empty] at hkv2

/-- Witness for the C3 theorem: applying `protoC` (records for the local
user 5 and for user 9) on `roomC` succeeds and the entry that ends up in
the registry, peer 2 with user 9, has user id different from 5. -/
theorem registry_never_contains_local_user_witness :
    roomC.client_user_id = some 5 ∧
    (roomC.apply_room_update protoC).result = Except.ok () ∧
    ((2, (⟨9, [], ParticipantLocation.External⟩ : RemoteParticipant)) :
        PeerId × RemoteParticipant).2.user_id ≠ 5 :=
  ⟨rfl, rfl, registry_never_contains_local_user roomC protoC 5 rfl rfl
    (2, ⟨9, [], ParticipantLocation.External⟩) (by decide)⟩

/-- Claim C5: on a snapshot all of whose records carry recognized location
tags (and whose non-local records have pairwise distinct peer ids, as the
claim's "exactly one entry per record, keyed by that record's PeerId"
presupposes), `apply_room_update` succeeds, notifies, replaces the
pending-invite list verbatim, and the registry holds exactly one entry per
record whose user id differs from the local user id, keyed by that
record's peer id, carrying that record's user id, an empty project set and
the parsed location. -/
theorem apply_room_update_success_contents (room : Room) (proto : ProtoRoom) (u : Nat)
    (huid : room.client_user_id = some u)
    (hval : ∀ p ∈ proto.participants, validLocation p = true)
    (hnd : ((remoteRecords (some u) proto.participants).map (fun p => p.peer_id)).Nodup) :
    (room.apply_room_update proto).result = Except.ok () ∧
    (room.apply_room_update proto).notified = true ∧
    (room.apply_room_update proto).room.pending_user_ids = proto.pending_user_ids ∧
    (room.apply_room_update proto).room.remote_participants.size =
      (remoteRecords (some u) proto.participants).length ∧
    (∀ p ∈ proto.participants, p.user_id ≠ u →
      ∃ loc, ParticipantLocation.from_proto p.location = Except.ok loc ∧
        (room.apply_room_update proto).room.remote_participants.find? p.peer_id =
          some ⟨p.user_id, [], loc⟩) := by
  have hvalor : ∀ p ∈ proto.participants,
      some p.user_id = some u ∨ validLocation p = true :=
    fun p hp => Or.inr (hval p hp)
  have hfst : (insertParticipants (some u) proto.participants Registry.empty).1 = none :=
    insertParticipants_ok_of_valid (some u) proto.participants Registry.empty hvalor
  have hres : insertParticipants (some u) proto.participants Registry.empty =
      (none, (insertParticipants (some u) proto.participants Registry.empty).2) := by
    rw [← hfst]
  have happ : room.apply_room_update proto =
      { result := Except.ok ()
        room := { room with
          remote_participants :=
            (insertParticipants (some u) proto.participants Registry.empty).2,
          pending_user_ids := proto.pending_user_ids }
        notified := true } := by
    unfold Room.apply_room_update
    rw [huid, hres]
  refine ⟨by rw [happ], by rw [happ], by rw [happ], ?_, ?_⟩
  · rw [happ]
    have hempty : ∀ p ∈ remoteRecords (some u) proto.participants,
        Registry.empty.find? p.peer_id = none := fun p hp => rfl
    have hsize := size_insertParticipants (some u) proto.participants Registry.empty
      hvalor hnd hempty
    simpa [Registry.size, Registry.empty] using hsize
  · intro p hp hpu
    have hpne : some p.user_id ≠ some u := fun hEq => hpu (Option.some.inj hEq)
    obtain ⟨loc, hloc, hfind⟩ := find?_insertParticipants_mem (some u) proto.participants
      Registry.empty hvalor hnd p hp hpne
    exact ⟨loc, hloc, by rw [happ]; exact hfind⟩

/-- Witness for the C5 theorem on the spec's scenario 1: local user 5,
records for users 5 (peer 1) and 9 (peer 2), pending invites 11 and 12:
the application succeeds, pending invites become [11, 12], the registry
has exactly one entry, and peer 2 maps to user 9 at the External
location. -/
theorem apply_room_update_success_contents_witness :
    roomE.client_user_id = some 5 ∧
    (roomE.apply_room_update protoE).result = Except.ok () ∧
    (roomE.apply_room_update protoE).room.pending_user_ids = [11, 12] ∧
    (roomE.apply_room_update protoE).room.remote_participants.size = 1 ∧
    (roomE.apply_room_update protoE).room.remote_participants.find? 2 =
      some ⟨9, [], ParticipantLocation.External⟩ := by
  have h := apply_room_update_success_contents roomE protoE 5 rfl (by decide) (by decide)
  refine ⟨rfl, h.1, h.2.2.1, by rw [h.2.2.2.1]; decide, ?_⟩
  obtain ⟨loc, hloc, hfind⟩ := h.2.2.2.2 ⟨9, 2, ⟨0, 0⟩⟩ (by decide) (by decide)
  have h1 : ParticipantLocation.from_proto
      ((⟨9, 2, ⟨0, 0⟩⟩ : ProtoParticipant)).location =
        Except.ok ParticipantLocation.External := rfl
  rw [h1] at hloc
  have h2 : ParticipantLocation.External = loc := Except.ok.inj hloc
  rw [← h2] at hfind
  exact hfind

/-- Claim C10: when the transport client reports no local user id, the
comparison `Some(participant.user_id) != self.client.user_id()` is true
for every record, so the reconciliation loop equals the loop with the
local-user filter removed; in particular, on a snapshot of valid records
every participant record of the snapshot ends up in the registry. -/
theorem apply_room_update_no_filter_when_uid_absent (room : Room) (proto : ProtoRoom)
    (huid : room.client_user_id = none)
    (hval : ∀ p ∈ proto.participants, validLocation p = true) :
    insertParticipants room.client_user_id proto.participants Registry.empty =
      insertParticipantsAll proto.participants Registry.empty ∧
    (room.apply_room_update proto).result = Except.ok () ∧
    (∀ p ∈ proto.participants,
      ((room.apply_room_update proto).room.remote_participants.find? p.peer_id).isSome =
        true) := by
  have hvalor : ∀ p ∈ proto.participants,
      some p.user_id = room.client_user_id ∨ validLocation p = true :=
    fun p hp => Or.inr (hval p hp)
  have hfst : (insertParticipants room.client_user_id proto.participants Registry.empty).1 =
      none :=
    insertParticipants_ok_of_valid room.client_user_id proto.participants Registry.empty hvalor
  have hres : insertParticipants room.client_user_id proto.participants Registry.empty =
      (none, (insertParticipants room.client_user_id proto.participants Registry.empty).2) := by
    rw [← hfst]
  have happ : room.apply_room_update proto =
      { result := Except.ok ()
        room := { room with
          remote_participants :=
            (insertParticipants room.client_user_id proto.participants Registry.empty).2,
          pending_user_ids := proto.pending_user_ids }
        notified := true } := by
    unfold Room.apply_room_update
    rw [hres]
  refine ⟨by rw [huid]; exact insertParticipants_none_eq_all _ _, by rw [happ], ?_⟩
  intro p hp
  have hpne : some p.user_id ≠ room.client_user_id := by
    rw [huid]
    simp
  rw [happ]
  exact find?_insertParticipants_mem_isSome room.client_user_id proto.participants
    Registry.empty hvalor p hp hpne

/-- Witness for the C10 theorem: on `roomJ` (client user id absent) both
records of `protoJ`, peers 1 and 2, end up in the registry. -/
theorem apply_room_update_no_filter_when_uid_absent_witness :
    roomJ.client_user_id = none ∧
    (roomJ.apply_room_update protoJ).result = Except.ok () ∧
    ((roomJ.apply_room_update protoJ).room.remote_participants.find? 1).isSome = true := by
  have h := apply_room_update_no_filter_when_uid_absent roomJ protoJ rfl (by decide)
  exact ⟨rfl, h.2.1, h.2.2 ⟨5, 1, ⟨0, 0⟩⟩ (by decide)⟩

/-- Claim C1, counterexample: `roomA` holds peer 1 (user 9) in its registry;
applying `protoA`, whose first record (user 7, peer 3) is valid and whose
second record carries the unrecognized location tag 99, fails with
InvalidLocation, yet the registry afterwards is not what it was before the
call: peer 1 is gone (the registry is cleared on entry) and peer 3 is
present (the records preceding the invalid one were already inserted). -/
theorem apply_room_update_not_atomic_cex :
    (roomA.apply_room_update protoA).result = Except.error RoomError.InvalidLocation ∧
    roomA.remote_participants.entries = [(1, ⟨9, [], ParticipantLocation.External⟩)] ∧
    (roomA.apply_room_update protoA).room.remote_participants.entries =
      [(3, ⟨7, [], ParticipantLocation.External⟩)] :=
  ⟨rfl, rfl, rfl⟩

/-- Claim C1 (amended): a snapshot containing a participant record with an
unrecognized location tag makes `apply_room_update` fail with
InvalidLocation, and the status, id and pending-invite list are unchanged
and no notification is emitted; but the remote-participant registry is NOT
left as it was before the call: it is cleared on entry and then holds
exactly the entries built from the (skipped-or-valid) records preceding
the first invalid one. -/
theorem apply_room_update_invalid_location_effect (room : Room) (rid : Nat)
    (pend : List Nat) (good : List ProtoParticipant) (bad : ProtoParticipant)
    (rest : List ProtoParticipant)
    (hgood : ∀ p ∈ good, some p.user_id = room.client_user_id ∨ validLocation p = true)
    (hbad : some bad.user_id ≠ room.client_user_id)
    (hbadloc : validLocation bad = false) :
    (room.apply_room_update ⟨rid, good ++ bad :: rest, pend⟩).result =
      Except.error RoomError.InvalidLocation ∧
    (room.apply_room_update ⟨rid, good ++ bad :: rest, pend⟩).room.remote_participants =
      (insertParticipants room.client_user_id good Registry.empty).2 ∧
    (room.apply_room_update ⟨rid, good ++ bad :: rest, pend⟩).room.pending_user_ids =
      room.pending_user_ids ∧
    (room.apply_room_update ⟨rid, good ++ bad :: rest, pend⟩).room.status = room.status ∧
    (room.apply_room_update ⟨rid, good ++ bad :: rest, pend⟩).room.id = room.id ∧
    (room.apply_room_update ⟨rid, good ++ bad :: rest, pend⟩).notified = false := by
  have hbadloc2 := validLocation_error bad hbadloc
  have hfst : (insertParticipants room.client_user_id good Registry.empty).1 = none :=
    insertParticipants_ok_of_valid room.client_user_id good Registry.empty hgood
  have hgoodres : insertParticipants room.client_user_id good Registry.empty =
      (none, (insertParticipants room.client_user_id good Registry.empty).2) := by
    rw [← hfst]
  have hfull : insertParticipants room.client_user_id (good ++ bad :: rest) Registry.empty =
      (some RoomError.InvalidLocation,
        (insertParticipants room.client_user_id good Registry.empty).2) := by
    rw [insertParticipants_append, hgoodres]
    exact insertParticipants_cons_error room.client_user_id bad rest _ hbad
      RoomError.InvalidLocation hbadloc2
  have happ : room.apply_room_update ⟨rid, good ++ bad :: rest, pend⟩ =
      { result := Except.error RoomError.InvalidLocation
        room := { room with
          remote_participants :=
            (insertParticipants room.client_user_id good Registry.empty).2 }
        notified := false } := by
    unfold Room.apply_room_update
    rw [hfull]
  refine ⟨by rw [happ], by rw [happ], by rw [happ], by rw [happ], by rw [happ],
    by rw [happ]⟩

/-- Witness for the amended C1 theorem on the concrete room and snapshot of
the counterexample. -/
theorem apply_room_update_invalid_location_effect_witness :
    validLocation (⟨8, 4, ⟨99, 0⟩⟩ : ProtoParticipant) = false ∧
    (roomA.apply_room_update
        ⟨1, [(⟨7, 3, ⟨0, 0⟩⟩ : ProtoParticipant)] ++ ⟨8, 4, ⟨99, 0⟩⟩ :: [], [6]⟩).result =
      Except.error RoomError.InvalidLocation :=
  ⟨by decide, (apply_room_update_invalid_location_effect roomA 1 [6]
    [⟨7, 3, ⟨0, 0⟩⟩] ⟨8, 4, ⟨99, 0⟩⟩ [] (by decide) (by decide) (by decide)).1⟩

end RoomCore
